import Mathlib

/-!
Verification of the transparent work-queue engine (workqueue.js,
workQueueError.js, workQueueHaltData.js) against its specification.

The JavaScript engine is shallowly embedded at two levels:

* a small-step transition relation `Step` on `EngineState`, modelling the
  interleaving of `add`/`addAll` pushes, guarded admissions performed by
  `_evaluateQueue`/`_retrieveNextPromise`, asynchronous promise settlements
  (`_processNextItem`/`_processNextItemWrapper`), halts, pause/resume and
  `clear`;
* an executable interpreter (`processOneE`, `evaluateE`, `addE`, `addAllE`,
  `pauseE`, `resumeE`) for the deterministic schedule in which every launched
  promise settles before the next evaluation turn (the schedule forced by
  `concurrencyLimit = 1`, and by synchronously settling tasks in general).

The `_halt`/`_onHalted`/`_onError` mutual recursion is modelled separately by
the fueled functions `haltH`/`onErrorH`, and option validation by
`validateOptions`/`constructQueue`.
-/

namespace TransparentQueue

/-- Error sources, from `WorkQueueError.ERROR_SOURCES` in workQueueError.js. -/
inductive ErrorSource
  | CALLBACK
  | PROCESS
  | INTERNAL
  | BADREQUEST
  deriving DecidableEq

/-- A `WorkQueueError`: message plus source tag (workQueueError.js). -/
structure WorkQueueError where
  message : String
  source : ErrorSource
  deriving DecidableEq

/-- The `WorkQueueError` constructor: when no source is supplied, the source
defaults to `INTERNAL` (workQueueError.js, constructor). -/
def mkWorkQueueError (message : String) (source : Option ErrorSource) : WorkQueueError :=
  { message := message, source := source.getD ErrorSource.INTERNAL }

/-- Halt reasons, from `WorkQueueHaltData.HALT_REASONS` in workQueueHaltData.js. -/
inductive HaltReason
  | CALLBACKRETVAL
  | ERRORCALLBACKERROR
  | PROCESSRETVAL
  | INTERNAL
  deriving DecidableEq

/-- A `WorkQueueHaltData` record: reason, optional error, optional name of the
triggering callback (workQueueHaltData.js). -/
structure WorkQueueHaltData where
  reason : HaltReason
  error : Option WorkQueueError := none
  callback : Option String := none
  deriving DecidableEq

/-- The JavaScript values the engine inspects: only `false` is distinguished
(`false === itemResult`, `false === callbackRetVal`); everything else is
treated alike. -/
inductive JsVal
  | vFalse
  | vTrue
  | vOther
  deriving DecidableEq

/-! ## Relational model of the admission engine

`EngineState` carries the observable mutable state of a `WorkQueue` instance
(`_queue`, `_inProgressCount` as the list `inFlight` of in-flight item ids,
`_halted`, `_paused`) together with ghost traces: every id ever pushed
(`enqueued`), every id ever dequeued-and-launched (`admitted`), every id whose
processing settled (`completed`), and every `WorkQueueHaltData` delivered to
`_onHalted` (`haltEvents`). -/

structure EngineState where
  queue : List Nat
  inFlight : List Nat
  halted : Bool
  paused : Bool
  enqueued : List Nat
  admitted : List Nat
  completed : List Nat
  haltEvents : List WorkQueueHaltData
  deriving DecidableEq

/-- The state built by the `WorkQueue` constructor: empty queue, zero
in-progress count, not halted, not paused. -/
def initState : EngineState :=
  { queue := [], inFlight := [], halted := false, paused := false,
    enqueued := [], admitted := [], completed := [], haltEvents := [] }

/-- `getInProgressCount`: the number of in-flight items. -/
def EngineState.inProgressCount (s : EngineState) : Nat := s.inFlight.length

/-- `_halt(reason)`: if already halted this is a no-op; otherwise the halted
flag is set and the record is delivered to the halted hook (`_onHalted`). -/
def haltStep (s : EngineState) (rec : WorkQueueHaltData) : EngineState :=
  if s.halted then s
  else { s with halted := true, haltEvents := s.haltEvents ++ [rec] }

/-- Settlement of an in-flight item's promise (`_processNextItem` /
`_processNextItemWrapper`): the item leaves the in-flight set, its completion
is recorded, and if the resolved value is exactly `false` the engine halts
with reason `PROCESSRETVAL` (workqueue.js lines 716-729). -/
def completeStep (s : EngineState) (i : Nat) (res : JsVal) : EngineState :=
  let s1 := { s with inFlight := s.inFlight.erase i, completed := s.completed ++ [i] }
  if res = JsVal.vFalse then haltStep s1 { reason := HaltReason.PROCESSRETVAL } else s1

/-- One asynchronous step of the engine with concurrency limit `k`:
pushes from `add`/`addAll`, the guarded dequeue-and-launch of
`_evaluateQueue`/`_retrieveNextPromise` (only when not halted, not paused,
and strictly below the concurrency limit; the head of the queue is taken and
the in-progress count incremented atomically with the check, as the JS code
does this synchronously), promise settlement, halts raised by callbacks or
internal errors, `pause`, `resume` and `clear`. -/
inductive Step (k : Nat) : EngineState → EngineState → Prop
  | enqueue (s : EngineState) (i : Nat) :
      Step k s { s with queue := s.queue ++ [i], enqueued := s.enqueued ++ [i] }
  | launch (s : EngineState) (i : Nat) (rest : List Nat) :
      s.halted = false → s.paused = false →
      s.inFlight.length < k → s.queue = i :: rest →
      Step k s { s with queue := rest, inFlight := s.inFlight ++ [i],
                        admitted := s.admitted ++ [i] }
  | complete (s : EngineState) (i : Nat) (res : JsVal) :
      i ∈ s.inFlight → Step k s (completeStep s i res)
  | halt (s : EngineState) (rec : WorkQueueHaltData) :
      Step k s (haltStep s rec)
  | pause (s : EngineState) :
      Step k s { s with paused := true }
  | resume (s : EngineState) :
      s.paused = true → Step k s { s with paused := false }
  | clear (s : EngineState) :
      Step k s { s with queue := [] }

/-- A state is reachable when some finite sequence of engine steps produces it
from the constructor state. -/
def Reachable (k : Nat) (s : EngineState) : Prop :=
  Relation.ReflTransGen (Step k) initState s

/-- The inductive invariant of the engine: the in-progress count never exceeds
the concurrency limit; the admitted trace followed by the pending queue is an
order-preserving subsequence of the enqueue trace (strict FIFO admission); and
under concurrency limit 1 the completion trace extended by the in-flight items
coincides with the admission trace (sequential completion). -/
def Inv (k : Nat) (s : EngineState) : Prop :=
  s.inFlight.length ≤ k ∧
  List.Sublist (s.admitted ++ s.queue) s.enqueued ∧
  (k = 1 → s.completed ++ s.inFlight = s.admitted)

/-! ## Executable model of the dequeue/launch/bookkeeping pipeline -/

/-- A queued work item: either a zero-argument task function identified by an
id, or an opaque value to be handed to the configured processor. -/
inductive WorkItem
  | task (id : Nat)
  | value (v : Nat)
  deriving DecidableEq

/-- Items that are functions pass the `typeof item === 'function'` test. -/
def WorkItem.isFunc : WorkItem → Bool
  | WorkItem.task _ => true
  | WorkItem.value _ => false

/-- The observable behavior of calling a task (or the processor on a value):
it may return a promise that resolves to `v`, return a promise that rejects,
throw synchronously, or return a non-thenable value. -/
inductive TaskOut
  | resolves (v : JsVal)
  | rejects
  | throwsSync
  | notAPromise
  deriving DecidableEq

/-- Behaviors of a registered `beforeItemProcessed` callback: resolve to
CONTINUE (or any non-sentinel value), SKIP, HALT, `false`, or fail. -/
inductive BeforeBeh
  | contB
  | skipB
  | haltB
  | falseB
  | throwsB
  deriving DecidableEq

/-- Behaviors of a registered `error` callback: return a non-`false` value,
return `false`, or throw/reject. -/
inductive ErrBeh
  | retOk
  | retFalse
  | throwsE
  deriving DecidableEq

/-- The configuration of a run: the concurrency limit, whether a processor was
configured, the behavior of the processor on each value and of each task, the
`beforeItemProcessed` callback (indexed by its invocation count; `none` when
unregistered) and the `error` callback behavior (`none` when unregistered).
All remaining hooks are modelled as absent or benign: they return non-`false`
values and do not fail. -/
structure ExecCfg where
  limit : Nat
  processorPresent : Bool
  procOut : Nat → TaskOut
  taskOut : Nat → TaskOut
  beforeCb : Option (Nat → BeforeBeh)
  errorCb : Option ErrBeh

/-- Observable events of a run: each hook delivery point reached by the
engine, with its payload, plus the launch of an item's task. -/
inductive Event
  | queueSizeChange (n : Nat)
  | queueEmpty
  | beforeItemProcessed
  | launched (item : WorkItem)
  | itemProcessed (v : JsVal)
  | errorDelivered (e : WorkQueueError)
  | haltedHook (r : HaltReason)
  | noWork
  | afterHaltCompleted
  | afterPauseCompleted
  | pausedHook
  | resumedHook
  deriving DecidableEq

/-- Executable engine state: the queue, `_inProgressCount`, `_halted`,
`_paused`, the number of `beforeItemProcessed` invocations so far, and the
event trace. -/
structure ExecState where
  queue : List WorkItem
  inProgress : Nat
  halted : Bool
  paused : Bool
  beforeCount : Nat
  events : List Event
  deriving DecidableEq

/-- The items whose task (or processor call) actually produced a promise, in
launch order. -/
def launchedItems (evs : List Event) : List WorkItem :=
  evs.filterMap fun e =>
    match e with
    | Event.launched it => some it
    | _ => none

/-- `_halt(reason)` in the executable model: no-op when already halted,
otherwise set the flag and deliver the reason to the halted hook. -/
def haltE (s : ExecState) (r : HaltReason) : ExecState :=
  if s.halted then s
  else { s with halted := true, events := s.events ++ [Event.haltedHook r] }

/-- `_onError(err)`: the error is delivered to the error hook; a callback that
returns `false` triggers `_halt` with reason `CALLBACKRETVAL`, a callback that
throws or rejects triggers `_halt` with reason `ERRORCALLBACKERROR`
(workqueue.js lines 388-450). -/
def onErrorE (cfg : ExecCfg) (s : ExecState) (e : WorkQueueError) : ExecState :=
  let s1 := { s with events := s.events ++ [Event.errorDelivered e] }
  match cfg.errorCb with
  | none => s1
  | some ErrBeh.retOk => s1
  | some ErrBeh.retFalse => haltE s1 HaltReason.CALLBACKRETVAL
  | some ErrBeh.throwsE => haltE s1 HaltReason.ERRORCALLBACKERROR

/-- `_onQueueSizeChange()`: deliver the new queue size to the queueSizeChange
hook and, when the size is now 0, also the queueEmpty hook. -/
def onQueueSizeChangeE (s : ExecState) : ExecState :=
  let n := s.queue.length
  let s1 := { s with events := s.events ++ [Event.queueSizeChange n] }
  if n = 0 then { s1 with events := s1.events ++ [Event.queueEmpty] } else s1

/-- The value that `_callHandler('beforeItemProcessed')` hands back to
`_retrieveNextPromise`. -/
inductive BeforeRes
  | resSkip
  | resHaltVal
  | resFalse
  | resOther
  deriving DecidableEq

/-- `_callHandler('beforeItemProcessed')`: an unregistered callback resolves
to `undefined`; a registered one is invoked, a resolution of `false` or of the
HALT sentinel triggers `_halt(CALLBACKRETVAL)` and the value is still passed
through, a throw or rejection is tagged `CALLBACK` and routed to `_onError`
after which `undefined` is passed through (workqueue.js lines 548-616). -/
def callBeforeE (cfg : ExecCfg) (s : ExecState) : ExecState × BeforeRes :=
  match cfg.beforeCb with
  | none => (s, BeforeRes.resOther)
  | some f =>
    let beh := f s.beforeCount
    let s1 := { s with beforeCount := s.beforeCount + 1,
                       events := s.events ++ [Event.beforeItemProcessed] }
    match beh with
    | BeforeBeh.contB => (s1, BeforeRes.resOther)
    | BeforeBeh.skipB => (s1, BeforeRes.resSkip)
    | BeforeBeh.haltB => (haltE s1 HaltReason.CALLBACKRETVAL, BeforeRes.resHaltVal)
    | BeforeBeh.falseB => (haltE s1 HaltReason.CALLBACKRETVAL, BeforeRes.resFalse)
    | BeforeBeh.throwsB =>
        (onErrorE cfg s1
          { message := "beforeItemProcessed callback failed",
            source := ErrorSource.CALLBACK }, BeforeRes.resOther)

/-- The launch portion of `_retrieveNextPromise` (workqueue.js lines 636-688):
a function item is called directly; a non-function item requires a configured
processor, and its absence is a `BADREQUEST` error; a synchronous throw is
tagged `PROCESS`; a non-thenable return is a `BADREQUEST` error. Every such
error is caught and routed to `_onError`, and no promise is launched. -/
def retrieveLaunchE (cfg : ExecCfg) (s : ExecState) (item : WorkItem) :
    ExecState × Option TaskOut :=
  match item with
  | WorkItem.task id =>
    match cfg.taskOut id with
    | TaskOut.throwsSync =>
        (onErrorE cfg s { message := "enqueued function threw",
                          source := ErrorSource.PROCESS }, none)
    | TaskOut.notAPromise =>
        (onErrorE cfg s { message := "Enqueued function did not return a Promise",
                          source := ErrorSource.BADREQUEST }, none)
    | out => ({ s with events := s.events ++ [Event.launched item] }, some out)
  | WorkItem.value v =>
    if cfg.processorPresent then
      match cfg.procOut v with
      | TaskOut.throwsSync =>
          (onErrorE cfg s { message := "processor threw",
                            source := ErrorSource.PROCESS }, none)
      | TaskOut.notAPromise =>
          (onErrorE cfg s { message := "Enqueued function did not return a Promise",
                            source := ErrorSource.BADREQUEST }, none)
      | out => ({ s with events := s.events ++ [Event.launched item] }, some out)
    else
      (onErrorE cfg s
        { message := "Enqueued item is not a function, and processor was not defined",
          source := ErrorSource.BADREQUEST }, none)

/-- Settlement of a launched promise (`_processNextItem`, lines 716-748): on
resolution the value is delivered to the itemProcessed hook and, if it is
exactly `false`, the engine halts with reason `PROCESSRETVAL`; on rejection
the failure is tagged `PROCESS` and routed to `_onError`. -/
def settleE (cfg : ExecCfg) (s : ExecState) (out : TaskOut) : ExecState :=
  match out with
  | TaskOut.resolves v =>
    let s1 := { s with events := s.events ++ [Event.itemProcessed v] }
    if v = JsVal.vFalse then haltE s1 HaltReason.PROCESSRETVAL else s1
  | TaskOut.rejects =>
    onErrorE cfg s { message := "item promise rejected", source := ErrorSource.PROCESS }
  | _ => s

/-- The completion bookkeeping of `_processNextItemWrapper` (lines 763-775),
evaluated on the state after the decrement: noWork when nothing is in progress
and the queue is empty; afterHaltCompleted when nothing is in progress and the
engine is halted; afterPauseCompleted when nothing is in progress and the
engine is paused. The three checks are independent. -/
def bookkeepingEvents (s : ExecState) : List Event :=
  (if s.inProgress = 0 ∧ s.queue.length = 0 then [Event.noWork] else []) ++
  (if s.inProgress = 0 ∧ s.halted = true then [Event.afterHaltCompleted] else []) ++
  (if s.inProgress = 0 ∧ s.paused = true then [Event.afterPauseCompleted] else [])

/-- The body of `_retrieveNextPromise` followed by `_processNextItem` for the
head of the queue, with the launched promise settling synchronously: shift the
item, increment the in-progress count, fire queue-size hooks, consult
`beforeItemProcessed` (SKIP, HALT and `false` suppress the launch), then
launch and settle. -/
def processCoreE (cfg : ExecCfg) (s : ExecState) : ExecState :=
  match s.queue with
  | [] => s
  | item :: rest =>
    let s1 := { s with queue := rest, inProgress := s.inProgress + 1 }
    let s2 := onQueueSizeChangeE s1
    let p := callBeforeE cfg s2
    match p.2 with
    | BeforeRes.resSkip => p.1
    | BeforeRes.resHaltVal => p.1
    | BeforeRes.resFalse => p.1
    | BeforeRes.resOther =>
      let q := retrieveLaunchE cfg p.1 item
      match q.2 with
      | none => q.1
      | some out => settleE cfg q.1 out

/-- The state at the completion event of `_processNextItemWrapper`: the head
item has been processed and the in-progress count decremented, but the
completion bookkeeping has not yet run. -/
def processDecremented (cfg : ExecCfg) (s : ExecState) : ExecState :=
  let s4 := processCoreE cfg s
  { s4 with inProgress := s4.inProgress - 1 }

/-- `_processNextItemWrapper`: process the head item, decrement the
in-progress count, then perform completion bookkeeping, evaluated fresh on
the state at this completion event. -/
def processOneE (cfg : ExecCfg) (s : ExecState) : ExecState :=
  match s.queue with
  | [] => s
  | _ :: _ =>
    let s5 := processDecremented cfg s
    { s5 with events := s5.events ++ bookkeepingEvents s5 }

/-- `_evaluateQueue` under the deterministic schedule in which every launched
promise settles before the next evaluation turn: return when halted or
paused, when the concurrency limit is reached, or when the queue is empty;
otherwise process the head item and re-evaluate. The fuel bounds the number
of evaluation turns. -/
def evaluateE : Nat → ExecCfg → ExecState → ExecState
  | 0, _, s => s
  | fuel + 1, cfg, s =>
    if s.halted = true ∨ s.paused = true then s
    else if cfg.limit ≤ s.inProgress then s
    else
      match s.queue with
      | [] => s
      | _ :: _ => evaluateE fuel cfg (processOneE cfg s)

/-- `add(item)` (workqueue.js lines 858-895): when no processor is configured
a non-function item raises a `BADREQUEST` error synchronously to the caller,
before the item is pushed; otherwise the item is pushed, the queue-size hooks
fire, and the queue is re-evaluated. -/
def addE (fuel : Nat) (cfg : ExecCfg) (s : ExecState) (item : WorkItem) :
    Except WorkQueueError ExecState :=
  if cfg.processorPresent = false ∧ item.isFunc = false then
    Except.error
      { message := "Only functions may be added to the queue when no processor has been defined",
        source := ErrorSource.BADREQUEST }
  else
    let s1 := { s with queue := s.queue ++ [item] }
    let s2 := onQueueSizeChangeE s1
    Except.ok (evaluateE fuel cfg s2)

/-- `addAll(items)` (workqueue.js lines 900-927): the whole sequence is pushed
without any validation, the queue-size hooks fire, and the queue is
re-evaluated. No error is ever raised to the caller. -/
def addAllE (fuel : Nat) (cfg : ExecCfg) (s : ExecState) (items : List WorkItem) :
    ExecState :=
  let s1 := { s with queue := s.queue ++ items }
  let s2 := onQueueSizeChangeE s1
  evaluateE fuel cfg s2

/-- `pause()` (workqueue.js lines 974-997): unconditionally set the paused
flag, then fire the paused hook without waiting for it. -/
def pauseE (s : ExecState) : ExecState :=
  let s1 := { s with paused := true }
  { s1 with events := s1.events ++ [Event.pausedHook] }

/-- `resume()` (workqueue.js lines 1001-1029): ignored unless paused;
otherwise clear the paused flag, fire the resumed hook, and re-evaluate. -/
def resumeE (fuel : Nat) (cfg : ExecCfg) (s : ExecState) : ExecState :=
  if s.paused = true then
    let s1 := { s with paused := false, events := s.events ++ [Event.resumedHook] }
    evaluateE fuel cfg s1
  else s

/-! ## Fueled model of the `_halt` / `_onHalted` / `_onError` recursion -/

/-- Behaviors of the `halted` and `error` callbacks for the double-fault
analysis: return a non-`false` value, return `false`, or throw/reject. -/
inductive CbBeh
  | retOkC
  | retFalseC
  | throwsC
  deriving DecidableEq

/-- Which of the two callbacks are registered, and how each behaves on every
invocation. -/
structure HookCfg where
  haltedCb : Option CbBeh
  errorCb : Option CbBeh

/-- State tracked by the double-fault analysis: the halted flag and how many
times each of the two callbacks has been invoked. -/
structure HookState where
  halted : Bool
  haltedCalls : Nat
  errorCalls : Nat
  deriving DecidableEq

mutual

/-- `_halt(reason)` (workqueue.js lines 316-343): if the halted flag is
already set, resolve immediately without invoking anything; otherwise set the
flag, invoke the halted callback through `_onHalted` (which does not inspect
its return value), and if that callback throws or rejects, route the failure
to `_onError`. The fuel bounds the recursion depth; depth 2 suffices because
the nested `_halt` always finds the flag already set. -/
def haltH : Nat → HookCfg → HookState → HookState
  | 0, _, s => s
  | fuel + 1, cfg, s =>
    if s.halted = true then s
    else
      let s1 : HookState := { s with halted := true }
      match cfg.haltedCb with
      | none => s1
      | some beh =>
        let s2 := { s1 with haltedCalls := s1.haltedCalls + 1 }
        match beh with
        | CbBeh.throwsC => onErrorH fuel cfg s2
        | _ => s2

/-- `_onError(err)` (workqueue.js lines 388-450): with no error callback,
resolve immediately; otherwise invoke it, and call `_halt` with reason
`ERRORCALLBACKERROR` when it throws or rejects, or with reason
`CALLBACKRETVAL` when it returns `false`. -/
def onErrorH : Nat → HookCfg → HookState → HookState
  | 0, _, s => s
  | fuel + 1, cfg, s =>
    match cfg.errorCb with
    | none => s
    | some beh =>
      let s2 := { s with errorCalls := s.errorCalls + 1 }
      match beh with
      | CbBeh.throwsC => haltH fuel cfg s2
      | CbBeh.retFalseC => haltH fuel cfg s2
      | CbBeh.retOkC => s2

end

/-! ## Callback failure wrapping -/

/-- A JavaScript value thrown by a callback (or carried by its rejected
promise): an `Error` already carrying a source tag, an `Error` without one, or
a non-`Error` value. -/
inductive JsThrown
  | errTagged (msg : String) (src : ErrorSource)
  | errPlain (msg : String)
  | nonError (desc : String)
  deriving DecidableEq

/-- The wrapping performed at the callback failure boundaries of
`_callHandler` (workqueue.js lines 567-572 and 601-606) and `_onHalted`
(lines 472-479 and 486-492): a non-`Error` value is first wrapped in a
`WorkQueueError`, and then the source tag is assigned `CALLBACK`
unconditionally. -/
def wrapCallbackFailure : JsThrown → WorkQueueError
  | JsThrown.errTagged msg _ => { message := msg, source := ErrorSource.CALLBACK }
  | JsThrown.errPlain msg => { message := msg, source := ErrorSource.CALLBACK }
  | JsThrown.nonError desc => { message := desc, source := ErrorSource.CALLBACK }

/-- Modelled from the spec (section 4.2) for comparison with the code: the
wrapped record keeps an existing source tag and receives `CALLBACK` only when
the thrown value carried none. -/
def wrapCallbackFailureSpec : JsThrown → WorkQueueError
  | JsThrown.errTagged msg src => { message := msg, source := src }
  | JsThrown.errPlain msg => { message := msg, source := ErrorSource.CALLBACK }
  | JsThrown.nonError desc => { message := desc, source := ErrorSource.CALLBACK }

/-- The full failure path of `_callHandler`: the thrown or rejected value is
wrapped and the result routed to `_onError`. -/
def callbackFailureToError (cfg : ExecCfg) (s : ExecState) (ex : JsThrown) : ExecState :=
  onErrorE cfg s (wrapCallbackFailure ex)

/-! ## Constructor validation -/

/-- The `concurrencyLimit` option as supplied by the caller: omitted (or
`null`), a non-numeric value (for which `isNaN` is true), or a number. -/
inductive ConcurrencyOpt
  | absent
  | nonNumeric
  | num (n : Int)
  deriving DecidableEq

/-- The `processor` option as supplied by the caller: omitted (or `null`), a
function, or a non-function value. -/
inductive ProcessorOpt
  | absentP
  | funcP
  | nonFuncP
  deriving DecidableEq

/-- The raw options object handed to the constructor. -/
structure RawOptions where
  concurrencyLimit : ConcurrencyOpt
  processor : ProcessorOpt
  deriving DecidableEq

/-- The validated options retained by the instance. -/
structure ValidOptions where
  concurrencyLimit : Int
  processorPresent : Bool
  deriving DecidableEq

/-- The default concurrency limit (workqueue.js line 262). -/
def DEFAULT_CONCURRENCY_LIMIT : Int := 1

/-- The concurrency-limit portion of `_validateOptions` (lines 294-304): an
omitted limit defaults to 1; a non-numeric limit is a `BADREQUEST` error; a
numeric limit below 1 is a `BADREQUEST` error. -/
def validateLimit (c : ConcurrencyOpt) : Except WorkQueueError Int :=
  match c with
  | ConcurrencyOpt.absent => Except.ok DEFAULT_CONCURRENCY_LIMIT
  | ConcurrencyOpt.nonNumeric =>
      Except.error { message := "Invalid concurrency limit: must be numeric",
                     source := ErrorSource.BADREQUEST }
  | ConcurrencyOpt.num n =>
      if n < 1 then
        Except.error { message := "Invalid concurrency limit: must be at least 1",
                       source := ErrorSource.BADREQUEST }
      else Except.ok n

/-- The processor portion of `_validateOptions` (lines 307-311): a supplied
non-function processor is a `BADREQUEST` error. -/
def checkProcessor (o : RawOptions) (n : Int) : Except WorkQueueError ValidOptions :=
  match o.processor with
  | ProcessorOpt.nonFuncP =>
      Except.error { message := "Invalid processor: must be a function",
                     source := ErrorSource.BADREQUEST }
  | ProcessorOpt.funcP => Except.ok { concurrencyLimit := n, processorPresent := true }
  | ProcessorOpt.absentP => Except.ok { concurrencyLimit := n, processorPresent := false }

/-- `_validateOptions`: the concurrency limit is validated first, then the
processor. -/
def validateOptions (o : RawOptions) : Except WorkQueueError ValidOptions :=
  match validateLimit o.concurrencyLimit with
  | Except.error e => Except.error e
  | Except.ok n => checkProcessor o n

/-- The fields of a freshly constructed `WorkQueue` instance. -/
structure WorkQueueInit where
  options : ValidOptions
  queue : List WorkItem
  inProgressCount : Nat
  callbacks : List String
  halted : Bool
  paused : Bool
  deriving DecidableEq

/-- The `WorkQueue` constructor (lines 265-274): validate the options, then
start with an empty queue, a zero in-progress count, no registered callbacks,
and neither halted nor paused. -/
def constructQueue (o : RawOptions) : Except WorkQueueError WorkQueueInit :=
  match validateOptions o with
  | Except.error e => Except.error e
  | Except.ok v =>
      Except.ok { options := v, queue := [], inProgressCount := 0,
                  callbacks := [], halted := false, paused := false }

/-! ## Helper lemmas -/

/-- All fields of `haltStep s rec` other than the halted flag and the halt
trace coincide with those of `s`. -/
theorem haltStep_fields (s : EngineState) (rec : WorkQueueHaltData) :
    (haltStep s rec).queue = s.queue ∧
    (haltStep s rec).inFlight = s.inFlight ∧
    (haltStep s rec).paused = s.paused ∧
    (haltStep s rec).enqueued = s.enqueued ∧
    (haltStep s rec).admitted = s.admitted ∧
    (haltStep s rec).completed = s.completed := by
  simp only [haltStep]
  split <;> simp

/-- Field description of `completeStep`: the completed item leaves the
in-flight list and is appended to the completion trace; queue, traces and the
paused flag are untouched. -/
theorem completeStep_fields (s : EngineState) (i : Nat) (res : JsVal) :
    (completeStep s i res).queue = s.queue ∧
    (completeStep s i res).inFlight = s.inFlight.erase i ∧
    (completeStep s i res).paused = s.paused ∧
    (completeStep s i res).enqueued = s.enqueued ∧
    (completeStep s i res).admitted = s.admitted ∧
    (completeStep s i res).completed = s.completed ++ [i] := by
  simp only [completeStep, haltStep]
  split <;> (try split) <;> simp

/-- A list of length at most one containing `i` is exactly `[i]`. -/
theorem mem_len_le_one_eq {i : Nat} {f : List Nat} (hm : i ∈ f) (hl : f.length ≤ 1) :
    f = [i] := by
  match f with
  | [] => cases hm
  | [x] => simp at hm; rw [hm]
  | x :: y :: t => simp at hl

/-- The constructor state satisfies the engine invariant. -/
theorem inv_init (k : Nat) : Inv k initState := by
  refine ⟨?_, ?_, ?_⟩ <;> simp [Inv, initState]

/-- Every engine step preserves the invariant. -/
theorem inv_step {k : Nat} {s s' : EngineState} (hs : Step k s s') (h : Inv k s) :
    Inv k s' := by
  obtain ⟨h1, h2, h3⟩ := h
  cases hs with
  | enqueue i =>
    refine ⟨h1, ?_, ?_⟩
    · simpa [List.append_assoc] using List.Sublist.append h2 (List.Sublist.refl [i])
    · intro hk
      simpa using h3 hk
  | launch i rest hh hp hl hq =>
    refine ⟨?_, ?_, ?_⟩
    · simp only [List.length_append, List.length_singleton]
      omega
    · rw [hq] at h2
      simpa [List.append_assoc] using h2
    · intro hk
      simp only [← List.append_assoc, h3 hk]
  | complete i res hmem =>
    obtain ⟨hq, hf, hp, he, ha, hc⟩ := completeStep_fields s i res
    refine ⟨?_, ?_, ?_⟩
    · rw [hf]
      exact le_trans (List.Sublist.length_le (List.erase_sublist i s.inFlight)) h1
    · rw [ha, hq, he]
      exact h2
    · intro hk
      have hfl : s.inFlight = [i] := mem_len_le_one_eq hmem (hk ▸ h1)
      rw [hc, hf, ha, hfl]
      simpa [hfl] using h3 hk
  | halt rec =>
    obtain ⟨hq, hf, hp, he, ha, hc⟩ := haltStep_fields s rec
    rw [Inv, hq, hf, he, ha, hc]
    exact ⟨h1, h2, h3⟩
  | pause => exact ⟨h1, h2, h3⟩
  | resume hp => exact ⟨h1, h2, h3⟩
  | clear =>
    refine ⟨h1, ?_, ?_⟩
    · simpa using (List.sublist_append_left s.admitted s.queue).trans h2
    · intro hk
      exact h3 hk


/-- Every reachable state satisfies the engine invariant. -/
theorem inv_reachable {k : Nat} {s : EngineState} (h : Reachable k s) : Inv k s := by
  induction h with
  | refl => exact inv_init k
  | tail _ hstep ih => exact inv_step hstep ih

/-- A single engine step out of a halted state keeps the halted flag set and
admits nothing. -/
theorem step_from_halted {k : Nat} {s s' : EngineState} (hs : Step k s s')
    (h : s.halted = true) : s'.halted = true ∧ s'.admitted = s.admitted := by
  cases hs with
  | enqueue i => exact ⟨h, rfl⟩
  | launch i rest hh hp hl hq => rw [h] at hh; cases hh
  | complete i res hmem =>
    obtain ⟨_, _, _, _, ha, _⟩ := completeStep_fields s i res
    refine ⟨?_, ha⟩
    simp only [completeStep, haltStep]
    split <;> simp_all
  | halt rec =>
    simp [haltStep, h]
  | pause => exact ⟨h, rfl⟩
  | resume hp => exact ⟨h, rfl⟩
  | clear => exact ⟨h, rfl⟩

/-- Any number of engine steps out of a halted state keeps the halted flag set
and admits nothing. -/
theorem rtg_from_halted {k : Nat} {s s' : EngineState}
    (h : Relation.ReflTransGen (Step k) s s') (hh : s.halted = true) :
    s'.halted = true ∧ s'.admitted = s.admitted := by
  induction h with
  | refl => exact ⟨hh, rfl⟩
  | tail hab hbc ih =>
    obtain ⟨i1, i2⟩ := ih
    obtain ⟨j1, j2⟩ := step_from_halted hbc i1
    exact ⟨j1, j2.trans i2⟩

/-! ## Claim C1 -/

/-- Claim C1: for every configured concurrency limit `k` and every reachable
state of the queue, the in-progress count never exceeds `k`: the evaluation
loop admits a new item only when the count is strictly below `k`, so along any
sequence of add/addAll/evaluate/completion steps the counter stays within
`[0, k]`. -/
theorem c1_inProgress_never_exceeds_limit (k : Nat) (s : EngineState)
    (h : Reachable k s) : s.inProgressCount ≤ k :=
  (inv_reachable h).1

/-- Witness for C1: after pushing item 7 and admitting it under concurrency
limit 1, the state is reachable and its in-progress count is within the
limit. -/
theorem c1_inProgress_never_exceeds_limit_witness :
    Reachable 1 { queue := [], inFlight := [7], halted := false, paused := false,
                  enqueued := [7], admitted := [7], completed := [], haltEvents := [] } ∧
    EngineState.inProgressCount
      { queue := [], inFlight := [7], halted := false, paused := false,
        enqueued := [7], admitted := [7], completed := [], haltEvents := [] } ≤ 1 := by
  have h1 : Step 1 initState
      { queue := [7], inFlight := [], halted := false, paused := false,
        enqueued := [7], admitted := [], completed := [], haltEvents := [] } :=
    Step.enqueue initState 7
  have h2 : Step 1
      { queue := [7], inFlight := [], halted := false, paused := false,
        enqueued := [7], admitted := [], completed := [], haltEvents := [] }
      { queue := [], inFlight := [7], halted := false, paused := false,
        enqueued := [7], admitted := [7], completed := [], haltEvents := [] } :=
    Step.launch _ 7 [] rfl rfl (by decide) rfl
  have hr := Relation.ReflTransGen.tail (Relation.ReflTransGen.tail
    Relation.ReflTransGen.refl h1) h2
  exact ⟨hr, c1_inProgress_never_exceeds_limit 1 _ hr⟩

/-! ## Claim C2 -/

/-- Claim C2: in every reachable state the admission trace followed by the
pending queue is an order-preserving subsequence of the enqueue trace, so
items pushed by `add`/`addAll` are dequeued and launched in strict FIFO order
of enqueue; and under concurrency limit 1 the completion trace extended by the
in-flight items equals the admission trace, so the completion order of
processed items is exactly their admission order. -/
theorem c2_fifo_admission_sequential_completion (k : Nat) (s : EngineState)
    (h : Reachable k s) :
    List.Sublist (s.admitted ++ s.queue) s.enqueued ∧
    (k = 1 → s.completed ++ s.inFlight = s.admitted) :=
  ⟨(inv_reachable h).2.1, (inv_reachable h).2.2⟩

/-- Witness for C2: push item 3, admit it, and let it complete with a
non-`false` result under concurrency limit 1; the FIFO and sequential
completion properties hold at the resulting reachable state. -/
theorem c2_fifo_admission_sequential_completion_witness :
    Reachable 1 { queue := [], inFlight := [], halted := false, paused := false,
                  enqueued := [3], admitted := [3], completed := [3], haltEvents := [] } ∧
    (List.Sublist
      (EngineState.admitted
        { queue := [], inFlight := [], halted := false, paused := false,
          enqueued := [3], admitted := [3], completed := [3], haltEvents := [] } ++
       EngineState.queue
        { queue := [], inFlight := [], halted := false, paused := false,
          enqueued := [3], admitted := [3], completed := [3], haltEvents := [] })
      (EngineState.enqueued
        { queue := [], inFlight := [], halted := false, paused := false,
          enqueued := [3], admitted := [3], completed := [3], haltEvents := [] }) ∧
     (1 = 1 →
       EngineState.completed
        { queue := [], inFlight := [], halted := false, paused := false,
          enqueued := [3], admitted := [3], completed := [3], haltEvents := [] } ++
       EngineState.inFlight
        { queue := [], inFlight := [], halted := false, paused := false,
          enqueued := [3], admitted := [3], completed := [3], haltEvents := [] } =
       EngineState.admitted
        { queue := [], inFlight := [], halted := false, paused := false,
          enqueued := [3], admitted := [3], completed := [3], haltEvents := [] })) := by
  have h1 : Step 1 initState
      { queue := [3], inFlight := [], halted := false, paused := false,
        enqueued := [3], admitted := [], completed := [], haltEvents := [] } :=
    Step.enqueue initState 3
  have h2 : Step 1
      { queue := [3], inFlight := [], halted := false, paused := false,
        enqueued := [3], admitted := [], completed := [], haltEvents := [] }
      { queue := [], inFlight := [3], halted := false, paused := false,
        enqueued := [3], admitted := [3], completed := [], haltEvents := [] } :=
    Step.launch _ 3 [] rfl rfl (by decide) rfl
  have h3 : Step 1
      { queue := [], inFlight := [3], halted := false, paused := false,
        enqueued := [3], admitted := [3], completed := [], haltEvents := [] }
      { queue := [], inFlight := [], halted := false, paused := false,
        enqueued := [3], admitted := [3], completed := [3], haltEvents := [] } :=
    Step.complete _ 3 JsVal.vTrue (by decide)
  have hr := Relation.ReflTransGen.tail (Relation.ReflTransGen.tail
    (Relation.ReflTransGen.tail Relation.ReflTransGen.refl h1) h2) h3
  exact ⟨hr, c2_fifo_admission_sequential_completion 1 _ hr⟩

/-! ## Claim C3 -/

/-- Claim C3: when a launched item's promise resolves to exactly `false` in a
non-halted state, the engine halts and the halted hook receives a record whose
reason is `PROCESSRETVAL`; from any halted state, any number of further engine
steps keeps the queue halted and admits (dequeues) no further item, so
evaluation is a permanent no-op; and items still in flight at the halt can
still take their completion step. -/
theorem c3_process_false_halts :
    (∀ (s : EngineState) (i : Nat), s.halted = false →
       (completeStep s i JsVal.vFalse).halted = true ∧
       (completeStep s i JsVal.vFalse).haltEvents =
         s.haltEvents ++ [{ reason := HaltReason.PROCESSRETVAL }]) ∧
    (∀ (k : Nat) (s s' : EngineState), Relation.ReflTransGen (Step k) s s' →
       s.halted = true → s'.halted = true ∧ s'.admitted = s.admitted) ∧
    (∀ (k : Nat) (s : EngineState) (i : Nat) (res : JsVal),
       i ∈ s.inFlight → Step k s (completeStep s i res)) := by
  refine ⟨?_, ?_, ?_⟩
  · intro s i hh
    simp [completeStep, haltStep, hh]
  · intro k s s' hrt hh
    exact rtg_from_halted hrt hh
  · intro k s i res hmem
    exact Step.complete s i res hmem

/-- Witness for C3: a state with item 5 in flight and not yet halted; its
promise resolving to `false` sets the halted flag and delivers the
`PROCESSRETVAL` record, a halted state stays halted with no admissions, and
the in-flight completion step exists. -/
theorem c3_process_false_halts_witness :
    ((completeStep
        { queue := [], inFlight := [5], halted := false, paused := false,
          enqueued := [5], admitted := [5], completed := [], haltEvents := [] }
        5 JsVal.vFalse).halted = true ∧
     (completeStep
        { queue := [], inFlight := [5], halted := false, paused := false,
          enqueued := [5], admitted := [5], completed := [], haltEvents := [] }
        5 JsVal.vFalse).haltEvents =
       [] ++ [{ reason := HaltReason.PROCESSRETVAL }]) ∧
    ({ queue := [], inFlight := [], halted := true, paused := false,
       enqueued := [5], admitted := [5], completed := [5],
       haltEvents := [{ reason := HaltReason.PROCESSRETVAL }] : EngineState }.halted = true ∧
     { queue := [], inFlight := [], halted := true, paused := false,
       enqueued := [5], admitted := [5], completed := [5],
       haltEvents := [{ reason := HaltReason.PROCESSRETVAL }] : EngineState }.admitted = [5]) ∧
    Step 1
      { queue := [], inFlight := [5], halted := true, paused := false,
        enqueued := [5], admitted := [5], completed := [], haltEvents := [] }
      (completeStep
        { queue := [], inFlight := [5], halted := true, paused := false,
          enqueued := [5], admitted := [5], completed := [], haltEvents := [] }
        5 JsVal.vTrue) := by
  refine ⟨c3_process_false_halts.1 _ 5 rfl, ?_, c3_process_false_halts.2.2 1 _ 5 JsVal.vTrue (by decide)⟩
  exact c3_process_false_halts.2.1 1 _ _ Relation.ReflTransGen.refl rfl

/-! ## Claim C4 -/

/-- With the halted flag already set, `_halt` returns at once without invoking
anything, at every fuel. -/
theorem haltH_of_halted (fuel : Nat) (cfg : HookCfg) (s : HookState)
    (h : s.halted = true) : haltH fuel cfg s = s := by
  cases fuel with
  | zero => rfl
  | succ n => simp [haltH, h]

/-- Claim C4: `_halt` is idempotent — invoked on an already-halted state it
changes nothing and does not invoke the halted hook again; consequently, when
both the halted and the error callbacks throw on every invocation, a single
halting event from a fresh state invokes the halted hook exactly once and the
error hook exactly once, terminates without any halt/error ping-pong (the
result does not depend on how much extra recursion depth is available), and
leaves the halted flag set. -/
theorem c4_halt_idempotent_double_fault :
    (∀ (fuel : Nat) (cfg : HookCfg) (s : HookState), s.halted = true →
       haltH fuel cfg s = s) ∧
    (∀ fuel : Nat,
       haltH (fuel + 2)
         { haltedCb := some CbBeh.throwsC, errorCb := some CbBeh.throwsC }
         { halted := false, haltedCalls := 0, errorCalls := 0 } =
       { halted := true, haltedCalls := 1, errorCalls := 1 }) := by
  refine ⟨haltH_of_halted, ?_⟩
  intro fuel
  have h2 := haltH_of_halted fuel
    { haltedCb := some CbBeh.throwsC, errorCb := some CbBeh.throwsC }
    { halted := true, haltedCalls := 1, errorCalls := 1 } rfl
  simp [haltH, onErrorH, h2]

/-- Witness for C4: at fuel 5, halting an already-halted state with benign
callbacks is the identity, and the double-throw scenario calls each hook
exactly once. -/
theorem c4_halt_idempotent_double_fault_witness :
    haltH 5 { haltedCb := some CbBeh.retOkC, errorCb := some CbBeh.retOkC }
      { halted := true, haltedCalls := 0, errorCalls := 0 } =
      { halted := true, haltedCalls := 0, errorCalls := 0 } ∧
    haltH 5 { haltedCb := some CbBeh.throwsC, errorCb := some CbBeh.throwsC }
      { halted := false, haltedCalls := 0, errorCalls := 0 } =
      { halted := true, haltedCalls := 1, errorCalls := 1 } :=
  ⟨c4_halt_idempotent_double_fault.1 5 _ _ rfl,
   c4_halt_idempotent_double_fault.2 3⟩

/-! ## Helper lemmas for the executable model -/

/-- `launchedItems` distributes over append. -/
theorem launchedItems_append (a b : List Event) :
    launchedItems (a ++ b) = launchedItems a ++ launchedItems b := by
  simp [launchedItems]

/-- A delivered error is not a launch event. -/
theorem launchedItems_errorDelivered_cons (er : WorkQueueError) (t : List Event) :
    launchedItems (Event.errorDelivered er :: t) = launchedItems t := by
  simp [launchedItems]

/-- Completion bookkeeping launches nothing. -/
theorem launchedItems_bookkeeping (s : ExecState) :
    launchedItems (bookkeepingEvents s) = [] := by
  unfold bookkeepingEvents
  split <;> split <;> split <;> rfl

/-- `haltE` appends at most a halted-hook event. -/
theorem haltE_events_decomp (s : ExecState) (r : HaltReason) :
    ∃ t, (haltE s r).events = s.events ++ t ∧ launchedItems t = [] := by
  unfold haltE
  split
  · exact ⟨[], by simp, rfl⟩
  · exact ⟨[Event.haltedHook r], rfl, rfl⟩

/-- `_onError` appends the delivered error and at most a halted-hook event,
launching nothing. -/
theorem onErrorE_events_decomp (cfg : ExecCfg) (s : ExecState) (er : WorkQueueError) :
    ∃ t, (onErrorE cfg s er).events = s.events ++ (Event.errorDelivered er :: t) ∧
      launchedItems t = [] := by
  unfold onErrorE
  rcases cfg.errorCb with _ | beh
  · exact ⟨[], by simp, rfl⟩
  · cases beh
    · exact ⟨[], by simp, rfl⟩
    · obtain ⟨t, ht, hl⟩ := haltE_events_decomp
        { s with events := s.events ++ [Event.errorDelivered er] } HaltReason.CALLBACKRETVAL
      exact ⟨t, by simpa [List.append_assoc] using ht, hl⟩
    · obtain ⟨t, ht, hl⟩ := haltE_events_decomp
        { s with events := s.events ++ [Event.errorDelivered er] } HaltReason.ERRORCALLBACKERROR
      exact ⟨t, by simpa [List.append_assoc] using ht, hl⟩

/-- The delivered error is among the events of `_onError`. -/
theorem onErrorE_mem_delivered (cfg : ExecCfg) (s : ExecState) (er : WorkQueueError) :
    Event.errorDelivered er ∈ (onErrorE cfg s er).events := by
  obtain ⟨t, ht, _⟩ := onErrorE_events_decomp cfg s er
  rw [ht]
  simp

/-- The queue-size hooks only append events; every other field is
unchanged. -/
theorem onQueueSizeChangeE_decomp (s : ExecState) :
    (onQueueSizeChangeE s).queue = s.queue ∧
    (onQueueSizeChangeE s).inProgress = s.inProgress ∧
    (onQueueSizeChangeE s).halted = s.halted ∧
    (onQueueSizeChangeE s).paused = s.paused ∧
    (onQueueSizeChangeE s).beforeCount = s.beforeCount ∧
    ∃ t, (onQueueSizeChangeE s).events = s.events ++ t ∧ launchedItems t = [] := by
  by_cases h : s.queue.length = 0
  · refine ⟨?_, ?_, ?_, ?_, ?_,
      ⟨[Event.queueSizeChange s.queue.length, Event.queueEmpty], ?_, rfl⟩⟩ <;>
      simp [onQueueSizeChangeE, h]
  · refine ⟨?_, ?_, ?_, ?_, ?_,
      ⟨[Event.queueSizeChange s.queue.length], ?_, rfl⟩⟩ <;>
      simp [onQueueSizeChangeE, h]

/-! ## Claim C6 (corrected) -/

/-- Counterexample to C6 as stated: on a halted queue, `pause()` does have an
effect — the state is marked paused and the paused hook fires. -/
theorem c6_counterexample :
    ({ queue := [], inProgress := 0, halted := true, paused := false,
       beforeCount := 0, events := [] : ExecState }).halted = true ∧
    (pauseE { queue := [], inProgress := 0, halted := true, paused := false,
              beforeCount := 0, events := [] }).paused = true ∧
    Event.pausedHook ∈
      (pauseE { queue := [], inProgress := 0, halted := true, paused := false,
                beforeCount := 0, events := [] }).events := by
  refine ⟨rfl, rfl, ?_⟩
  simp [pauseE]

/-- Claim C6 as amended: `pause()` on a halted queue unconditionally sets the
paused flag and fires the paused hook; the halted flag is retained, and
evaluation remains a permanent no-op (halt still dominates admission), at any
fuel and configuration. -/
theorem c6_pause_on_halted_amended (s : ExecState) (h : s.halted = true) :
    (pauseE s).halted = true ∧
    (pauseE s).paused = true ∧
    (pauseE s).events = s.events ++ [Event.pausedHook] ∧
    (∀ (fuel : Nat) (cfg : ExecCfg), evaluateE fuel cfg (pauseE s) = pauseE s) := by
  refine ⟨by simp [pauseE, h], by simp [pauseE], by simp [pauseE], ?_⟩
  intro fuel cfg
  cases fuel with
  | zero => rfl
  | succ n => simp [evaluateE, pauseE, h]

/-- Witness for the amended C6, at a concrete halted state. -/
theorem c6_pause_on_halted_amended_witness :
    (pauseE { queue := [], inProgress := 0, halted := true, paused := false,
              beforeCount := 0, events := [] }).halted = true ∧
    (pauseE { queue := [], inProgress := 0, halted := true, paused := false,
              beforeCount := 0, events := [] }).paused = true ∧
    (pauseE { queue := [], inProgress := 0, halted := true, paused := false,
              beforeCount := 0, events := [] }).events = [] ++ [Event.pausedHook] ∧
    (∀ (fuel : Nat) (cfg : ExecCfg),
       evaluateE fuel cfg
         (pauseE { queue := [], inProgress := 0, halted := true, paused := false,
                   beforeCount := 0, events := [] }) =
       pauseE { queue := [], inProgress := 0, halted := true, paused := false,
                beforeCount := 0, events := [] }) :=
  c6_pause_on_halted_amended
    { queue := [], inProgress := 0, halted := true, paused := false,
      beforeCount := 0, events := [] } rfl

/-! ## Claim C7 (corrected) -/

/-- Counterexample to C7 as stated: a callback failure that is already a
tagged error (source `BADREQUEST`) does not keep its tag — the code
overwrites the source with `CALLBACK` unconditionally, diverging from the
spec-modelled wrapping. -/
theorem c7_counterexample :
    wrapCallbackFailure (JsThrown.errTagged "request failed" ErrorSource.BADREQUEST) ≠
      wrapCallbackFailureSpec (JsThrown.errTagged "request failed" ErrorSource.BADREQUEST) ∧
    (wrapCallbackFailure
      (JsThrown.errTagged "request failed" ErrorSource.BADREQUEST)).source =
      ErrorSource.CALLBACK := by
  exact ⟨by decide, rfl⟩

/-- Claim C7 as amended: every hook-callback failure (synchronous throw or
rejected promise) is wrapped into a `WorkQueueError` (non-`Error` values
first) and routed to the error hook, and the record's source tag is always
`CALLBACK` — overwriting any source tag the thrown value already carried. -/
theorem c7_callback_failure_always_callback_source (cfg : ExecCfg) (s : ExecState)
    (ex : JsThrown) :
    (wrapCallbackFailure ex).source = ErrorSource.CALLBACK ∧
    Event.errorDelivered (wrapCallbackFailure ex) ∈
      (callbackFailureToError cfg s ex).events := by
  constructor
  · cases ex <;> rfl
  · exact onErrorE_mem_delivered cfg s (wrapCallbackFailure ex)

/-- Unfolding of `_processNextItemWrapper` when the queue is non-empty. -/
theorem processOneE_eq (cfg : ExecCfg) (s : ExecState) (hne : s.queue ≠ []) :
    processOneE cfg s =
      { processDecremented cfg s with
          events := (processDecremented cfg s).events ++
            bookkeepingEvents (processDecremented cfg s) } := by
  unfold processOneE
  match hq : s.queue with
  | [] => exact absurd hq hne
  | it :: rest => rfl

/-- Dequeuing a non-function item with no processor configured: the
`BADREQUEST` error raised inside `_retrieveNextPromise` is caught and routed
to `_onError`, and nothing is launched. -/
theorem processCoreE_value_noproc (cfg : ExecCfg) (s : ExecState) (v : Nat)
    (rest : List WorkItem) (hp : cfg.processorPresent = false)
    (hb : cfg.beforeCb = none) (hq : s.queue = WorkItem.value v :: rest) :
    processCoreE cfg s =
      onErrorE cfg
        (onQueueSizeChangeE { s with queue := rest, inProgress := s.inProgress + 1 })
        { message := "Enqueued item is not a function, and processor was not defined",
          source := ErrorSource.BADREQUEST } := by
  unfold processCoreE
  rw [hq]
  simp [callBeforeE, hb, retrieveLaunchE, hp]

/-! ## Claim C5 -/

/-- Claim C5: with no processor configured, `add` of a non-function item
fails synchronously with a `BADREQUEST` error before any queue mutation (the
call returns only the error, never a state); `addAll` of the same item
enqueues it without validation and returns normally to its caller; and at
dequeue time that item produces a `BADREQUEST` error that is delivered
through the error hook, with nothing launched. -/
theorem c5_add_eager_addAll_lazy :
    (∀ (fuel : Nat) (cfg : ExecCfg) (s : ExecState) (v : Nat),
       cfg.processorPresent = false →
       addE fuel cfg s (WorkItem.value v) =
         Except.error
           { message := "Only functions may be added to the queue when no processor has been defined",
             source := ErrorSource.BADREQUEST }) ∧
    (∀ (cfg : ExecCfg) (s : ExecState) (items : List WorkItem),
       (addAllE 0 cfg s items).queue = s.queue ++ items) ∧
    (∀ (cfg : ExecCfg) (s : ExecState) (v : Nat) (rest : List WorkItem),
       cfg.processorPresent = false → cfg.beforeCb = none →
       s.queue = WorkItem.value v :: rest →
       Event.errorDelivered
         { message := "Enqueued item is not a function, and processor was not defined",
           source := ErrorSource.BADREQUEST } ∈ (processOneE cfg s).events ∧
       launchedItems (processOneE cfg s).events = launchedItems s.events) := by
  refine ⟨?_, ?_, ?_⟩
  · intro fuel cfg s v hp
    simp [addE, hp, WorkItem.isFunc]
  · intro cfg s items
    have h := (onQueueSizeChangeE_decomp { s with queue := s.queue ++ items }).1
    simpa [addAllE, evaluateE] using h
  · intro cfg s v rest hp hb hq
    have hcore := processCoreE_value_noproc cfg s v rest hp hb hq
    have hone := processOneE_eq cfg s (by rw [hq]; simp)
    obtain ⟨hq2, hip2, hh2, hp2, hbc2, ⟨t1, ht1, hl1⟩⟩ :=
      onQueueSizeChangeE_decomp { s with queue := rest, inProgress := s.inProgress + 1 }
    obtain ⟨t2, ht2, hl2⟩ := onErrorE_events_decomp cfg
      (onQueueSizeChangeE { s with queue := rest, inProgress := s.inProgress + 1 })
      { message := "Enqueued item is not a function, and processor was not defined",
        source := ErrorSource.BADREQUEST }
    have hdec : (processDecremented cfg s).events =
        (onErrorE cfg
          (onQueueSizeChangeE { s with queue := rest, inProgress := s.inProgress + 1 })
          { message := "Enqueued item is not a function, and processor was not defined",
            source := ErrorSource.BADREQUEST }).events := by
      unfold processDecremented
      rw [hcore]
    have hev : (processOneE cfg s).events =
        ((s.events ++ t1) ++
          (Event.errorDelivered
            { message := "Enqueued item is not a function, and processor was not defined",
              source := ErrorSource.BADREQUEST } :: t2)) ++
          bookkeepingEvents (processDecremented cfg s) := by
      rw [hone]
      simp only [hdec, ht2, ht1]
    constructor
    · rw [hev]
      simp
    · rw [hev, launchedItems_append, launchedItems_append, launchedItems_append,
          hl1, launchedItems_errorDelivered_cons, hl2, launchedItems_bookkeeping]
      simp

/-- Witness for C5 at a concrete configuration with no processor: adding the
opaque value 9 fails synchronously with `BADREQUEST`; `addAll` enqueues it;
dequeuing it delivers `BADREQUEST` through the error hook and launches
nothing. -/
theorem c5_add_eager_addAll_lazy_witness :
    addE 1
      { limit := 1, processorPresent := false,
        procOut := fun _ => TaskOut.resolves JsVal.vTrue,
        taskOut := fun _ => TaskOut.resolves JsVal.vTrue,
        beforeCb := none, errorCb := none }
      { queue := [], inProgress := 0, halted := false, paused := false,
        beforeCount := 0, events := [] }
      (WorkItem.value 9) =
      Except.error
        { message := "Only functions may be added to the queue when no processor has been defined",
          source := ErrorSource.BADREQUEST } ∧
    (addAllE 0
      { limit := 1, processorPresent := false,
        procOut := fun _ => TaskOut.resolves JsVal.vTrue,
        taskOut := fun _ => TaskOut.resolves JsVal.vTrue,
        beforeCb := none, errorCb := none }
      { queue := [], inProgress := 0, halted := false, paused := false,
        beforeCount := 0, events := [] }
      [WorkItem.value 9]).queue = [] ++ [WorkItem.value 9] ∧
    Event.errorDelivered
      { message := "Enqueued item is not a function, and processor was not defined",
        source := ErrorSource.BADREQUEST } ∈
      (processOneE
        { limit := 1, processorPresent := false,
          procOut := fun _ => TaskOut.resolves JsVal.vTrue,
          taskOut := fun _ => TaskOut.resolves JsVal.vTrue,
          beforeCb := none, errorCb := none }
        { queue := [WorkItem.value 9], inProgress := 0, halted := false,
          paused := false, beforeCount := 0, events := [] }).events ∧
    launchedItems
      (processOneE
        { limit := 1, processorPresent := false,
          procOut := fun _ => TaskOut.resolves JsVal.vTrue,
          taskOut := fun _ => TaskOut.resolves JsVal.vTrue,
          beforeCb := none, errorCb := none }
        { queue := [WorkItem.value 9], inProgress := 0, halted := false,
          paused := false, beforeCount := 0, events := [] }).events =
      launchedItems [] :=
  ⟨c5_add_eager_addAll_lazy.1 1 _ _ 9 rfl,
   c5_add_eager_addAll_lazy.2.1 _ _ [WorkItem.value 9],
   (c5_add_eager_addAll_lazy.2.2 _ _ 9 [] rfl rfl rfl).1,
   (c5_add_eager_addAll_lazy.2.2 _ _ 9 [] rfl rfl rfl).2⟩

/-- Dequeuing an item whose `beforeItemProcessed` callback resolves to SKIP:
the queue-size hooks and the before hook fire, and nothing else happens before
the decrement — in particular the task/processor is never called. -/
theorem processCoreE_skip (cfg : ExecCfg) (s : ExecState) (f : Nat → BeforeBeh)
    (item : WorkItem) (rest : List WorkItem) (hb : cfg.beforeCb = some f)
    (hq : s.queue = item :: rest) (hf : f s.beforeCount = BeforeBeh.skipB) :
    processCoreE cfg s =
      { onQueueSizeChangeE { s with queue := rest, inProgress := s.inProgress + 1 } with
          beforeCount :=
            (onQueueSizeChangeE
              { s with queue := rest, inProgress := s.inProgress + 1 }).beforeCount + 1,
          events :=
            (onQueueSizeChangeE
              { s with queue := rest, inProgress := s.inProgress + 1 }).events ++
              [Event.beforeItemProcessed] } := by
  have hbc : (onQueueSizeChangeE
      { s with queue := rest, inProgress := s.inProgress + 1 }).beforeCount =
      s.beforeCount :=
    (onQueueSizeChangeE_decomp { s with queue := rest, inProgress := s.inProgress + 1 }).2.2.2.2.1
  unfold processCoreE
  rw [hq]
  simp [callBeforeE, hb, hbc, hf]

/-! ## Claim C8 -/

/-- Claim C8: when the `beforeItemProcessed` hook resolves to the SKIP
sentinel for the item just dequeued, its task (or the processor) is never
invoked, yet the item counts as completed — the in-progress count returns to
its previous value, the item leaves the queue, and completion bookkeeping
runs — and the engine goes on to the remaining items; concretely, with three
enqueued tasks and SKIP returned only for the second, exactly the first and
third tasks are launched, in that order, and the run drains to an idle
state. -/
theorem c8_skip_sentinel :
    (∀ (cfg : ExecCfg) (s : ExecState) (f : Nat → BeforeBeh) (item : WorkItem)
       (rest : List WorkItem),
       cfg.beforeCb = some f → s.queue = item :: rest →
       f s.beforeCount = BeforeBeh.skipB →
       (processOneE cfg s).queue = rest ∧
       (processOneE cfg s).inProgress = s.inProgress ∧
       (processOneE cfg s).halted = s.halted ∧
       launchedItems (processOneE cfg s).events = launchedItems s.events ∧
       (processOneE cfg s).events =
         (processDecremented cfg s).events ++
           bookkeepingEvents (processDecremented cfg s)) ∧
    (launchedItems
       (evaluateE 3
         { limit := 1, processorPresent := false,
           procOut := fun _ => TaskOut.resolves JsVal.vTrue,
           taskOut := fun _ => TaskOut.resolves JsVal.vTrue,
           beforeCb := some (fun i => if i = 1 then BeforeBeh.skipB else BeforeBeh.contB),
           errorCb := none }
         { queue := [WorkItem.task 1, WorkItem.task 2, WorkItem.task 3],
           inProgress := 0, halted := false, paused := false,
           beforeCount := 0, events := [] }).events =
       [WorkItem.task 1, WorkItem.task 3] ∧
     (evaluateE 3
       { limit := 1, processorPresent := false,
         procOut := fun _ => TaskOut.resolves JsVal.vTrue,
         taskOut := fun _ => TaskOut.resolves JsVal.vTrue,
         beforeCb := some (fun i => if i = 1 then BeforeBeh.skipB else BeforeBeh.contB),
         errorCb := none }
       { queue := [WorkItem.task 1, WorkItem.task 2, WorkItem.task 3],
         inProgress := 0, halted := false, paused := false,
         beforeCount := 0, events := [] }).inProgress = 0) := by
  constructor
  · intro cfg s f item rest hb hq hf
    have hcore := processCoreE_skip cfg s f item rest hb hq hf
    have hone := processOneE_eq cfg s (by rw [hq]; simp)
    obtain ⟨hq2, hip2, hh2, hp2, hbc2, ⟨t1, ht1, hl1⟩⟩ :=
      onQueueSizeChangeE_decomp { s with queue := rest, inProgress := s.inProgress + 1 }
    have hdq : (processDecremented cfg s).queue = rest := by
      unfold processDecremented
      rw [hcore]
      simpa using hq2
    have hdip : (processDecremented cfg s).inProgress = s.inProgress := by
      unfold processDecremented
      rw [hcore]
      simp [hip2]
    have hdh : (processDecremented cfg s).halted = s.halted := by
      unfold processDecremented
      rw [hcore]
      simpa using hh2
    have hdev : (processDecremented cfg s).events =
        (s.events ++ t1) ++ [Event.beforeItemProcessed] := by
      unfold processDecremented
      rw [hcore]
      simp [ht1]
    refine ⟨?_, ?_, ?_, ?_, ?_⟩
    · rw [hone]
      simpa using hdq
    · rw [hone]
      simpa using hdip
    · rw [hone]
      simpa using hdh
    · rw [hone]
      simp only [hdev, launchedItems_append, hl1, launchedItems_bookkeeping]
      simp [launchedItems]
    · rw [hone]
  · constructor
    · decide
    · decide

/-- Witness for C8: the general SKIP behavior applied at a concrete
single-item state whose before hook returns SKIP on its first invocation. -/
theorem c8_skip_sentinel_witness :
    ((processOneE
        { limit := 1, processorPresent := false,
          procOut := fun _ => TaskOut.resolves JsVal.vTrue,
          taskOut := fun _ => TaskOut.resolves JsVal.vTrue,
          beforeCb := some (fun _ => BeforeBeh.skipB), errorCb := none }
        { queue := [WorkItem.task 4], inProgress := 0, halted := false,
          paused := false, beforeCount := 0, events := [] }).queue = [] ∧
     (processOneE
        { limit := 1, processorPresent := false,
          procOut := fun _ => TaskOut.resolves JsVal.vTrue,
          taskOut := fun _ => TaskOut.resolves JsVal.vTrue,
          beforeCb := some (fun _ => BeforeBeh.skipB), errorCb := none }
        { queue := [WorkItem.task 4], inProgress := 0, halted := false,
          paused := false, beforeCount := 0, events := [] }).inProgress = 0) := by
  have h := c8_skip_sentinel.1
    { limit := 1, processorPresent := false,
      procOut := fun _ => TaskOut.resolves JsVal.vTrue,
      taskOut := fun _ => TaskOut.resolves JsVal.vTrue,
      beforeCb := some (fun _ => BeforeBeh.skipB), errorCb := none }
    { queue := [WorkItem.task 4], inProgress := 0, halted := false,
      paused := false, beforeCount := 0, events := [] }
    (fun _ => BeforeBeh.skipB) (WorkItem.task 4) [] rfl rfl rfl
  exact ⟨h.1, h.2.1⟩

/-! ## Claim C9 -/

/-- Claim C9: at an item-completion event the noWork hook is invoked exactly
when, at that moment, the in-progress count is 0 and the queue is empty; the
completion path always evaluates the bookkeeping fresh on the state at that
completion; and in a concrete run where one task drains, another is
re-enqueued via `addAll` and drains again, the noWork hook fires twice. -/
theorem c9_noWork_iff_idle_and_empty :
    (∀ s : ExecState,
       Event.noWork ∈ bookkeepingEvents s ↔ s.inProgress = 0 ∧ s.queue = []) ∧
    (∀ (cfg : ExecCfg) (s : ExecState), s.queue ≠ [] →
       (processOneE cfg s).events =
         (processDecremented cfg s).events ++
           bookkeepingEvents (processDecremented cfg s)) ∧
    ((addAllE 1
        { limit := 1, processorPresent := false,
          procOut := fun _ => TaskOut.resolves JsVal.vTrue,
          taskOut := fun _ => TaskOut.resolves JsVal.vTrue,
          beforeCb := none, errorCb := none }
        (evaluateE 1
          { limit := 1, processorPresent := false,
            procOut := fun _ => TaskOut.resolves JsVal.vTrue,
            taskOut := fun _ => TaskOut.resolves JsVal.vTrue,
            beforeCb := none, errorCb := none }
          { queue := [WorkItem.task 0], inProgress := 0, halted := false,
            paused := false, beforeCount := 0, events := [] })
        [WorkItem.task 1]).events.filter (fun e => e == Event.noWork)).length = 2 := by
  refine ⟨?_, ?_, ?_⟩
  · intro s
    unfold bookkeepingEvents
    split_ifs with h1 h2 h3 <;> simp_all [List.length_eq_zero]
  · intro cfg s hne
    rw [processOneE_eq cfg s hne]
  · decide

/-- Witness for C9: the iff applied at a concrete idle-and-empty state, and
the fresh-bookkeeping equation applied at a concrete one-item state. -/
theorem c9_noWork_iff_idle_and_empty_witness :
    (Event.noWork ∈ bookkeepingEvents
      { queue := [], inProgress := 0, halted := false, paused := false,
        beforeCount := 0, events := [] } ↔
     ({ queue := [], inProgress := 0, halted := false, paused := false,
        beforeCount := 0, events := [] : ExecState }).inProgress = 0 ∧
     ({ queue := [], inProgress := 0, halted := false, paused := false,
        beforeCount := 0, events := [] : ExecState }).queue = []) ∧
    (processOneE
       { limit := 1, processorPresent := false,
         procOut := fun _ => TaskOut.resolves JsVal.vTrue,
         taskOut := fun _ => TaskOut.resolves JsVal.vTrue,
         beforeCb := none, errorCb := none }
       { queue := [WorkItem.task 0], inProgress := 0, halted := false,
         paused := false, beforeCount := 0, events := [] }).events =
      (processDecremented
        { limit := 1, processorPresent := false,
          procOut := fun _ => TaskOut.resolves JsVal.vTrue,
          taskOut := fun _ => TaskOut.resolves JsVal.vTrue,
          beforeCb := none, errorCb := none }
        { queue := [WorkItem.task 0], inProgress := 0, halted := false,
          paused := false, beforeCount := 0, events := [] }).events ++
        bookkeepingEvents
          (processDecremented
            { limit := 1, processorPresent := false,
              procOut := fun _ => TaskOut.resolves JsVal.vTrue,
              taskOut := fun _ => TaskOut.resolves JsVal.vTrue,
              beforeCb := none, errorCb := none }
            { queue := [WorkItem.task 0], inProgress := 0, halted := false,
              paused := false, beforeCount := 0, events := [] }) :=
  ⟨c9_noWork_iff_idle_and_empty.1 _,
   c9_noWork_iff_idle_and_empty.2.1 _ _ (by decide)⟩

/-! ## Claim C10 -/

/-- Claim C10: the constructor validates its options eagerly — a non-numeric
concurrency limit, a numeric limit below 1, or a non-function processor each
raise a `BADREQUEST` error; with valid options construction succeeds with an
empty queue, a zero in-progress count, no registered callbacks, neither
halted nor paused, and the validated limit; an omitted concurrency limit
defaults to 1; and a `WorkQueueError` built without an explicit source
defaults to source `INTERNAL`. -/
theorem c10_constructor_validation :
    (∀ p : ProcessorOpt,
       constructQueue { concurrencyLimit := ConcurrencyOpt.nonNumeric, processor := p } =
         Except.error { message := "Invalid concurrency limit: must be numeric",
                        source := ErrorSource.BADREQUEST }) ∧
    (∀ (n : Int) (p : ProcessorOpt), n < 1 →
       constructQueue { concurrencyLimit := ConcurrencyOpt.num n, processor := p } =
         Except.error { message := "Invalid concurrency limit: must be at least 1",
                        source := ErrorSource.BADREQUEST }) ∧
    (∀ (c : ConcurrencyOpt) (n : Int), validateLimit c = Except.ok n →
       constructQueue { concurrencyLimit := c, processor := ProcessorOpt.nonFuncP } =
         Except.error { message := "Invalid processor: must be a function",
                        source := ErrorSource.BADREQUEST }) ∧
    (∀ (c : ConcurrencyOpt) (n : Int), validateLimit c = Except.ok n →
       constructQueue { concurrencyLimit := c, processor := ProcessorOpt.funcP } =
         Except.ok { options := { concurrencyLimit := n, processorPresent := true },
                     queue := [], inProgressCount := 0, callbacks := [],
                     halted := false, paused := false } ∧
       constructQueue { concurrencyLimit := c, processor := ProcessorOpt.absentP } =
         Except.ok { options := { concurrencyLimit := n, processorPresent := false },
                     queue := [], inProgressCount := 0, callbacks := [],
                     halted := false, paused := false }) ∧
    validateLimit ConcurrencyOpt.absent = Except.ok 1 ∧
    (∀ msg : String, (mkWorkQueueError msg none).source = ErrorSource.INTERNAL) := by
  refine ⟨?_, ?_, ?_, ?_, rfl, fun msg => rfl⟩
  · intro p
    simp [constructQueue, validateOptions, validateLimit]
  · intro n p h
    simp [constructQueue, validateOptions, validateLimit, h]
  · intro c n h
    simp [constructQueue, validateOptions, h, checkProcessor]
  · intro c n h
    constructor <;> simp [constructQueue, validateOptions, h, checkProcessor]

/-- Witness for C10 at concrete options: limit 0 is rejected, a non-function
processor with limit 2 is rejected, and limit 2 with a function processor
constructs the fresh empty instance. -/
theorem c10_constructor_validation_witness :
    ((0 : Int) < 1 ∧
     constructQueue { concurrencyLimit := ConcurrencyOpt.num 0,
                      processor := ProcessorOpt.absentP } =
       Except.error { message := "Invalid concurrency limit: must be at least 1",
                      source := ErrorSource.BADREQUEST }) ∧
    (validateLimit (ConcurrencyOpt.num 2) = Except.ok 2 ∧
     constructQueue { concurrencyLimit := ConcurrencyOpt.num 2,
                      processor := ProcessorOpt.nonFuncP } =
       Except.error { message := "Invalid processor: must be a function",
                      source := ErrorSource.BADREQUEST }) ∧
    constructQueue { concurrencyLimit := ConcurrencyOpt.num 2,
                     processor := ProcessorOpt.funcP } =
      Except.ok { options := { concurrencyLimit := 2, processorPresent := true },
                  queue := [], inProgressCount := 0, callbacks := [],
                  halted := false, paused := false } :=
  ⟨⟨by decide, c10_constructor_validation.2.1 0 ProcessorOpt.absentP (by decide)⟩,
   ⟨rfl, c10_constructor_validation.2.2.1 (ConcurrencyOpt.num 2) 2 rfl⟩,
   (c10_constructor_validation.2.2.2.1 (ConcurrencyOpt.num 2) 2 rfl).1⟩

end TransparentQueue
